import Mathlib

set_option maxRecDepth 4000

/-!
Shallow embedding of the EFI boot-time memory manager (`src/efi/efimm.c`):
the firmware allocation gateway with its allocation tracker, the memory-map
reader classification, the E820 legacy-map translator, the legacy-map
iterator, and the init/fini lifecycle.

Firmware nondeterminism is modelled by an explicit stream of responses to
the firmware `allocate_pages` service carried in the state, and every
firmware call is logged (`allocLog`, `freeLog`) so theorems can speak about
which services were invoked with which arguments.  The ghost field `fwLive`
records the set of page-range base addresses currently allocated by the
firmware and not yet freed: it is updated exactly at the two firmware call
sites and nowhere else.
-/

/-- Unsigned 64-bit wraparound for the C `unsigned long long` arithmetic. -/
def u64 (n : Nat) : Nat := n % 2 ^ 64

/-- One slot of the allocation tracker (`struct allocated_page`):
    base address and page count; `addr = 0` is the unused-slot sentinel. -/
structure allocated_page where
  addr : Nat
  num_pages : Nat
deriving DecidableEq

def ALLOCATED_PAGES_SIZE : Nat := 0x1000

/-- The count `ALLOCATED_PAGES_SIZE / sizeof (struct allocated_page)` = 0x1000 / 16. -/
def MAX_ALLOCATED_PAGES : Nat := ALLOCATED_PAGES_SIZE / 16

def MEMORY_MAP_SIZE : Nat := 0x2000

/-- The allocation type passed to the firmware `allocate_pages` service
    (`GRUB_EFI_ALLOCATE_ANY_PAGES` / `..._MAX_ADDRESS` / `..._ADDRESS`). -/
inductive alloc_type where
  | any_pages
  | max_address
  | at_address
deriving DecidableEq

/-- Classification of the firmware status of `get_memory_map`: the code
    distinguishes exactly `GRUB_EFI_SUCCESS`, `GRUB_EFI_BUFFER_TOO_SMALL`,
    and everything else. -/
inductive efi_status where
  | success
  | buffer_too_small
  | other_error
deriving DecidableEq

/-- The `struct e820_entry` shape (declared in shared.h, used here): base address,
    byte length, E820 type tag. -/
structure e820_entry where
  addr : Nat
  size : Nat
  type : Nat
deriving DecidableEq

/-- The E820 output array together with the 16-byte word sitting just below
    it in memory: `add_memory_region` reads `e820_map[x-1]` even when the
    entry count `x` is 0, so that word is part of the observable inputs of
    the code.  `entries` is the live prefix `e820_map[0 .. *e820_nr_map)`;
    the count `*e820_nr_map` is `entries.length`. -/
structure E820Map where
  below : e820_entry
  entries : List e820_entry
deriving DecidableEq

/-- The `grub_efi_memory_descriptor_t` shape, restricted to the fields the translator
    reads.  The C iteration over the descriptor buffer advances by the
    firmware-reported stride; the buffer is modelled as the list of
    descriptors visited, in iteration order. -/
structure efi_memory_descriptor where
  type : Nat
  physical_start : Nat
  num_pages : Nat
deriving DecidableEq

/-- The `struct mmar_desc` shape (declared in shared.h, used here): the 20-byte legacy
    descriptor written by `get_mmap_entry`. -/
structure mmar_desc where
  desc_len : Nat
  addr : Nat
  length : Nat
  type : Nat
deriving DecidableEq

/-- The whole state of the memory manager plus its firmware environment.
    `fwResponses` is the pending stream of firmware `allocate_pages`
    responses (success flag, returned base address); `allocLog` records each
    `allocate_pages` firmware call as (type, pages, address argument);
    `freeLog` records each `free_pages` firmware call as (address, pages);
    `fwLive` is the ghost list of firmware-allocated-and-not-yet-freed base
    addresses; `tracker` is the C global `allocated_pages` (its own base
    address paired with the slot array, or `none` when the pointer is null);
    `gmmStatus`/`gmmDescs` model what the firmware `get_memory_map` service
    reports and what the translator subsequently reads from the buffer;
    `e820` is the pair of C globals `grub_e820_map` / `grub_e820_nr_map`. -/
structure EfiState where
  fwResponses : List (Bool × Nat)
  allocLog : List (alloc_type × Nat × Nat)
  freeLog : List (Nat × Nat)
  fwLive : List Nat
  tracker : Option (Nat × List allocated_page)
  gmmStatus : efi_status
  gmmDescs : List efi_memory_descriptor
  e820 : E820Map
deriving DecidableEq

/-- The loop `for (i = 0; i < MAX_ALLOCATED_PAGES; i++) if (addr == 0)
    { record; break; }` of both allocators: record the range in the first
    unused slot; `none` when the scan falls off the end (tracker full),
    in which case the C code reports "too many page allocations". -/
def track_insert : List allocated_page → Nat → Nat → Option (List allocated_page)
  | [], _, _ => none
  | p :: rest, address, pages =>
      if p.addr = 0 then some ({ addr := address, num_pages := pages } :: rest)
      else (track_insert rest address pages).map (p :: ·)

/-- The loop of `grub_efi_free_pages`: clear (set `addr` to 0 in) the first
    slot whose address matches, then stop. -/
def track_clear : List allocated_page → Nat → List allocated_page
  | [], _ => []
  | p :: rest, address =>
      if p.addr = address then { p with addr := 0 } :: rest
      else p :: track_clear rest address

/-- The next pending firmware `allocate_pages` response; an exhausted
    response stream reads as a failure. -/
def fwRespHead (s : EfiState) : Bool × Nat := s.fwResponses.headD (false, 0)

/-- One invocation of the firmware `allocate_pages` service
    (`Call_Service_4 (b->allocate_pages, ...)`): consume the next response,
    log the request, and add the returned address to the ghost live set when
    the call succeeded. -/
def fw_allocate_pages (ty : alloc_type) (pages addrIn : Nat) (s : EfiState) :
    EfiState :=
  { s with
    fwResponses := s.fwResponses.tail
    allocLog := s.allocLog ++ [(ty, pages, addrIn)]
    fwLive := if (fwRespHead s).1 then (fwRespHead s).2 :: s.fwLive else s.fwLive }

/-- Embedding of `grub_efi_free_pages`: if the tracker exists and `address` is not the
    tracker storage's own base address, clear the matching tracker slot;
    then call the firmware `free_pages` service unconditionally. -/
def grub_efi_free_pages (address pages : Nat) (s : EfiState) : EfiState :=
  let s1 :=
    match s.tracker with
    | some (selfA, slots) =>
        if selfA ≠ address then
          { s with tracker := some (selfA, track_clear slots address) }
        else s
    | none => s
  { s1 with
    freeLog := s1.freeLog ++ [(address, pages)]
    fwLive := s1.fwLive.erase address }

/-- The tail shared by both allocators: `if (allocated_pages) { scan for a
    free slot; if none, print "too many page allocations" and return NULL; }
    return (void *) address;`.  Returns the C return value (0 = NULL)
    paired with the new state. -/
def record_allocation (address pages : Nat) (s : EfiState) : Nat × EfiState :=
  match s.tracker with
  | none => (address, s)
  | some (selfA, slots) =>
      match track_insert slots address pages with
      | some slots' => (address, { s with tracker := some (selfA, slots') })
      | none => (0, s)

/-- Embedding of `grub_efi_allocate_anypages`: ask the firmware for pages at any address;
    on firmware failure return NULL; otherwise record in the tracker (NULL on
    tracker exhaustion) and return the address. -/
def grub_efi_allocate_anypages (pages : Nat) (s : EfiState) : Nat × EfiState :=
  let resp := fwRespHead s
  let s1 := fw_allocate_pages alloc_type.any_pages pages 0 s
  if resp.1 = false then (0, s1)
  else record_allocation resp.2 pages s1

/-- Embedding of `grub_efi_allocate_pages`: reject addresses above 0x7fffffff without
    calling the firmware; address 0 becomes a MAX_ADDRESS request at
    0x7fffffff; if the firmware hands back address 0, issue one retry (same
    type, address argument 0x7fffffff) and free the zero allocation; record
    the result in the tracker (NULL on exhaustion) and return it. -/
def grub_efi_allocate_pages (address pages : Nat) (s : EfiState) : Nat × EfiState :=
  if 0x7fffffff < address then (0, s)
  else
    let ty : alloc_type :=
      if address = 0 then alloc_type.max_address else alloc_type.at_address
    let addr1 := if address = 0 then 0x7fffffff else address
    let resp := fwRespHead s
    let s1 := fw_allocate_pages ty pages addr1 s
    if resp.1 = false then (0, s1)
    else if resp.2 = 0 then
      let resp2 := fwRespHead s1
      let s2 := fw_allocate_pages ty pages 0x7fffffff s1
      let s3 := grub_efi_free_pages 0 pages s2
      if resp2.1 = false then (0, s3)
      else record_allocation resp2.2 pages s3
    else record_allocation resp.2 pages s1

/-- Status classification of `grub_efi_get_memory_map`: 1 on success, 0 when
    the buffer was too small, -1 on any other firmware error. -/
def grub_efi_get_memory_map (status : efi_status) : Int :=
  match status with
  | efi_status.success => 1
  | efi_status.buffer_too_small => 0
  | efi_status.other_error => -1

/-! ## E820 legacy-map translator -/

def E820_RAM : Nat := 1
def E820_RESERVED : Nat := 2
def E820_ACPI : Nat := 3
def E820_NVS : Nat := 4

/-- The compile-time bound `E820_MAX` on legacy region entries.  Modelled
    from the spec: shared.h (which defines it) is not in src/; the spec only
    says it is "a fixed compile-time maximum entry count", so the customary
    value 128 is used.  No claim depends on the exact value. -/
def E820_MAX : Nat := 128

/-- EFI memory type tags (grub/efi/api.h is not in src/; the values follow
    the standard EFI memory-type enumeration the code's symbols refer to;
    only their distinctness matters to the translator). -/
def GRUB_EFI_RESERVED_MEMORY_TYPE : Nat := 0
def GRUB_EFI_LOADER_CODE : Nat := 1
def GRUB_EFI_LOADER_DATA : Nat := 2
def GRUB_EFI_BOOT_SERVICES_CODE : Nat := 3
def GRUB_EFI_BOOT_SERVICES_DATA : Nat := 4
def GRUB_EFI_RUNTIME_SERVICES_CODE : Nat := 5
def GRUB_EFI_RUNTIME_SERVICES_DATA : Nat := 6
def GRUB_EFI_CONVENTIONAL_MEMORY : Nat := 7
def GRUB_EFI_UNUSABLE_MEMORY : Nat := 8
def GRUB_EFI_ACPI_RECLAIM_MEMORY : Nat := 9
def GRUB_EFI_ACPI_MEMORY_NVS : Nat := 10
def GRUB_EFI_MEMORY_MAPPED_IO_TYPE : Nat := 11
def GRUB_EFI_MEMORY_MAPPED_IO_PORT_SPACE : Nat := 12
def GRUB_EFI_PAL_CODE : Nat := 13

/-- Embedding of `add_memory_region`: drop the region when the table is full; otherwise
    compare against `e820_map[x-1]` — which, when `x = 0`, is the word just
    below the array (`m.below`) — and either extend that previous entry in
    place or append a new entry and bump the count. -/
def add_memory_region (m : E820Map) (start size : Nat) (ty : Nat) : E820Map :=
  if m.entries.length = E820_MAX then m
  else
    let prev := m.entries.getLastD m.below
    if u64 (prev.addr + prev.size) = start ∧ prev.type = ty then
      let merged : e820_entry := { prev with size := u64 (prev.size + size) }
      if m.entries.isEmpty then { m with below := merged }
      else { m with entries := m.entries.dropLast ++ [merged] }
    else
      { m with entries := m.entries ++ [{ addr := start, size := size, type := ty }] }

/-- The per-descriptor `switch (desc->type)` body of `e820_map_from_efi_map`,
    including the video/ROM-hole split of RAM-classified descriptors. -/
def e820_desc_step (m : E820Map) (d : efi_memory_descriptor) : E820Map :=
  if d.type = GRUB_EFI_ACPI_RECLAIM_MEMORY then
    add_memory_region m d.physical_start (u64 (d.num_pages * 4096)) E820_ACPI
  else if d.type = GRUB_EFI_RUNTIME_SERVICES_CODE ∨
          d.type = GRUB_EFI_RUNTIME_SERVICES_DATA ∨
          d.type = GRUB_EFI_RESERVED_MEMORY_TYPE ∨
          d.type = GRUB_EFI_MEMORY_MAPPED_IO_TYPE ∨
          d.type = GRUB_EFI_MEMORY_MAPPED_IO_PORT_SPACE ∨
          d.type = GRUB_EFI_UNUSABLE_MEMORY ∨
          d.type = GRUB_EFI_PAL_CODE then
    add_memory_region m d.physical_start (u64 (d.num_pages * 4096)) E820_RESERVED
  else if d.type = GRUB_EFI_LOADER_CODE ∨
          d.type = GRUB_EFI_LOADER_DATA ∨
          d.type = GRUB_EFI_BOOT_SERVICES_CODE ∨
          d.type = GRUB_EFI_BOOT_SERVICES_DATA ∨
          d.type = GRUB_EFI_CONVENTIONAL_MEMORY then
    let start := d.physical_start
    let size := u64 (d.num_pages * 4096)
    let ed := u64 (start + size)
    if start < 0x100000 ∧ 0xA0000 < ed then
      let m1 :=
        if start < 0xA0000 then
          add_memory_region m start (0xA0000 - start) E820_RAM
        else m
      if ed ≤ 0x100000 then m1
      else add_memory_region m1 0x100000 (ed - 0x100000) E820_RAM
    else add_memory_region m start size E820_RAM
  else if d.type = GRUB_EFI_ACPI_MEMORY_NVS then
    add_memory_region m d.physical_start (u64 (d.num_pages * 4096)) E820_NVS
  else m

/-- Embedding of `e820_map_from_efi_map`: reset the entry count to 0, then process every
    firmware descriptor in buffer order. -/
def e820_map_from_efi_map (m : E820Map) (descs : List efi_memory_descriptor) :
    E820Map :=
  descs.foldl e820_desc_step { m with entries := [] }

/-- Embedding of `update_e820_map`: allocate the 0x2000-byte (2-page) scratch buffer via
    `grub_efi_allocate_pages (0, 2)`; abort when that yields NULL; call the
    memory-map reader and abort (leaking the buffer) only when it classifies
    the status as a hard error (result < 0); otherwise translate and free
    the scratch buffer. -/
def update_e820_map (s : EfiState) : EfiState :=
  let out := grub_efi_allocate_pages 0 2 s
  if out.1 = 0 then out.2
  else if grub_efi_get_memory_map out.2.gmmStatus < 0 then out.2
  else
    let s2 := { out.2 with e820 := e820_map_from_efi_map out.2.e820 out.2.gmmDescs }
    grub_efi_free_pages out.1 2 s2

/-! ## Legacy map iterator -/

def MMAR_DESC_LENGTH : Nat := 20

/-- Embedding of `get_mmap_entry`: out-of-range continuations (negative or at least the
    region count) write a zero-length descriptor and return 0; otherwise
    copy the entry and return the next index, or 0 after the last entry.
    `map` is the live prefix of `grub_e820_map` (its length is
    `grub_e820_nr_map`); on the invalid path only `desc_len` is written. -/
def get_mmap_entry (map : List e820_entry) (d : mmar_desc) (cont : Int) :
    mmar_desc × Int :=
  if cont < 0 ∨ (map.length : Int) ≤ cont then
    ({ d with desc_len := 0 }, 0)
  else
    let entry := map.getD cont.toNat { addr := 0, size := 0, type := 0 }
    let d' : mmar_desc :=
      { desc_len := MMAR_DESC_LENGTH
        addr := entry.addr
        length := entry.size
        type := entry.type }
    if cont + 1 < (map.length : Int) then (d', cont + 1) else (d', 0)

/-! ## Lifecycle -/

/-- Embedding of `grub_efi_mm_init`: allocate the 0x1000-byte (1-page) tracker storage
    through `grub_efi_allocate_pages (0, 1)` (untracked, since the tracker
    pointer is null during that call), install the zero-filled slot table on
    success, and build the legacy map; on allocation failure the tracker
    pointer stays null and the map is not built. -/
def grub_efi_mm_init (s : EfiState) : EfiState :=
  let out := grub_efi_allocate_pages 0 1 s
  if out.1 = 0 then { out.2 with tracker := none }
  else
    update_e820_map
      { out.2 with
        tracker :=
          some (out.1, List.replicate MAX_ALLOCATED_PAGES { addr := 0, num_pages := 0 }) }

/-- One iteration of the shutdown loop of `grub_efi_mm_fini`: read slot `i`
    of the tracker as currently mutated (each `grub_efi_free_pages` call
    clears the slot it frees) and free it through the page gateway when its
    address is non-sentinel. -/
def fini_step (s : EfiState) (i : Nat) : EfiState :=
  match s.tracker with
  | some (_, slots) =>
      match slots.get? i with
      | some p =>
          if p.addr ≠ 0 then grub_efi_free_pages p.addr p.num_pages s else s
      | none => s
  | none => s

/-- The shutdown loop of `grub_efi_mm_fini`: visit slot indices in order. -/
def fini_loop (s : EfiState) : List Nat → EfiState
  | [] => s
  | i :: rest => fini_loop (fini_step s i) rest

/-- Embedding of `grub_efi_mm_fini`: if the tracker exists, free every live tracked range
    through the page gateway, then free the tracker storage itself (1 page);
    the tracker pointer is left dangling, as in the C code. -/
def grub_efi_mm_fini (s : EfiState) : EfiState :=
  match s.tracker with
  | none => s
  | some (selfA, _) =>
      let s' := fini_loop s (List.range MAX_ALLOCATED_PAGES)
      grub_efi_free_pages selfA 1 s'

/-! ## Projection lemmas for the state operations -/

@[simp] theorem fw_allocate_pages_fwResponses (ty : alloc_type) (p a : Nat)
    (s : EfiState) : (fw_allocate_pages ty p a s).fwResponses = s.fwResponses.tail := rfl

@[simp] theorem fw_allocate_pages_allocLog (ty : alloc_type) (p a : Nat)
    (s : EfiState) : (fw_allocate_pages ty p a s).allocLog = s.allocLog ++ [(ty, p, a)] := rfl

@[simp] theorem fw_allocate_pages_freeLog (ty : alloc_type) (p a : Nat)
    (s : EfiState) : (fw_allocate_pages ty p a s).freeLog = s.freeLog := rfl

@[simp] theorem fw_allocate_pages_tracker (ty : alloc_type) (p a : Nat)
    (s : EfiState) : (fw_allocate_pages ty p a s).tracker = s.tracker := rfl

@[simp] theorem fw_allocate_pages_fwLive (ty : alloc_type) (p a : Nat)
    (s : EfiState) : (fw_allocate_pages ty p a s).fwLive =
      if (fwRespHead s).1 then (fwRespHead s).2 :: s.fwLive else s.fwLive := rfl

@[simp] theorem fw_allocate_pages_gmmStatus (ty : alloc_type) (p a : Nat)
    (s : EfiState) : (fw_allocate_pages ty p a s).gmmStatus = s.gmmStatus := rfl

@[simp] theorem fw_allocate_pages_gmmDescs (ty : alloc_type) (p a : Nat)
    (s : EfiState) : (fw_allocate_pages ty p a s).gmmDescs = s.gmmDescs := rfl

@[simp] theorem fw_allocate_pages_e820 (ty : alloc_type) (p a : Nat)
    (s : EfiState) : (fw_allocate_pages ty p a s).e820 = s.e820 := rfl

@[simp] theorem grub_efi_free_pages_fwResponses (a p : Nat) (s : EfiState) :
    (grub_efi_free_pages a p s).fwResponses = s.fwResponses := by
  unfold grub_efi_free_pages
  rcases s.tracker with _ | ⟨selfA, slots⟩ <;> simp <;> split <;> rfl

@[simp] theorem grub_efi_free_pages_allocLog (a p : Nat) (s : EfiState) :
    (grub_efi_free_pages a p s).allocLog = s.allocLog := by
  unfold grub_efi_free_pages
  rcases s.tracker with _ | ⟨selfA, slots⟩ <;> simp <;> split <;> rfl

@[simp] theorem grub_efi_free_pages_freeLog (a p : Nat) (s : EfiState) :
    (grub_efi_free_pages a p s).freeLog = s.freeLog ++ [(a, p)] := by
  unfold grub_efi_free_pages
  rcases s.tracker with _ | ⟨selfA, slots⟩ <;> simp <;> split <;> rfl

@[simp] theorem grub_efi_free_pages_fwLive (a p : Nat) (s : EfiState) :
    (grub_efi_free_pages a p s).fwLive = s.fwLive.erase a := by
  unfold grub_efi_free_pages
  rcases s.tracker with _ | ⟨selfA, slots⟩ <;> simp <;> split <;> rfl

@[simp] theorem grub_efi_free_pages_gmmStatus (a p : Nat) (s : EfiState) :
    (grub_efi_free_pages a p s).gmmStatus = s.gmmStatus := by
  unfold grub_efi_free_pages
  rcases s.tracker with _ | ⟨selfA, slots⟩ <;> simp <;> split <;> rfl

@[simp] theorem grub_efi_free_pages_gmmDescs (a p : Nat) (s : EfiState) :
    (grub_efi_free_pages a p s).gmmDescs = s.gmmDescs := by
  unfold grub_efi_free_pages
  rcases s.tracker with _ | ⟨selfA, slots⟩ <;> simp <;> split <;> rfl

@[simp] theorem grub_efi_free_pages_e820 (a p : Nat) (s : EfiState) :
    (grub_efi_free_pages a p s).e820 = s.e820 := by
  unfold grub_efi_free_pages
  rcases s.tracker with _ | ⟨selfA, slots⟩ <;> simp <;> split <;> rfl

theorem grub_efi_free_pages_tracker_none (a p : Nat) (s : EfiState)
    (h : s.tracker = none) : (grub_efi_free_pages a p s).tracker = none := by
  unfold grub_efi_free_pages
  simp [h]

theorem grub_efi_free_pages_tracker_other (a p : Nat) (s : EfiState)
    (selfA : Nat) (slots : List allocated_page)
    (h : s.tracker = some (selfA, slots)) (hne : selfA ≠ a) :
    (grub_efi_free_pages a p s).tracker = some (selfA, track_clear slots a) := by
  unfold grub_efi_free_pages
  simp [h, hne]

theorem grub_efi_free_pages_tracker_self (a p : Nat) (s : EfiState)
    (selfA : Nat) (slots : List allocated_page)
    (h : s.tracker = some (selfA, slots)) (heq : selfA = a) :
    (grub_efi_free_pages a p s).tracker = some (selfA, slots) := by
  unfold grub_efi_free_pages
  simp [h, heq]

@[simp] theorem record_allocation_fwResponses (a p : Nat) (s : EfiState) :
    ((record_allocation a p s).2).fwResponses = s.fwResponses := by
  unfold record_allocation
  rcases s.tracker with _ | ⟨selfA, slots⟩ <;> simp
  rcases track_insert slots a p with _ | slots' <;> rfl

@[simp] theorem record_allocation_allocLog (a p : Nat) (s : EfiState) :
    ((record_allocation a p s).2).allocLog = s.allocLog := by
  unfold record_allocation
  rcases s.tracker with _ | ⟨selfA, slots⟩ <;> simp
  rcases track_insert slots a p with _ | slots' <;> rfl

@[simp] theorem record_allocation_freeLog (a p : Nat) (s : EfiState) :
    ((record_allocation a p s).2).freeLog = s.freeLog := by
  unfold record_allocation
  rcases s.tracker with _ | ⟨selfA, slots⟩ <;> simp
  rcases track_insert slots a p with _ | slots' <;> rfl

@[simp] theorem record_allocation_fwLive (a p : Nat) (s : EfiState) :
    ((record_allocation a p s).2).fwLive = s.fwLive := by
  unfold record_allocation
  rcases s.tracker with _ | ⟨selfA, slots⟩ <;> simp
  rcases track_insert slots a p with _ | slots' <;> rfl

@[simp] theorem record_allocation_gmmStatus (a p : Nat) (s : EfiState) :
    ((record_allocation a p s).2).gmmStatus = s.gmmStatus := by
  unfold record_allocation
  rcases s.tracker with _ | ⟨selfA, slots⟩ <;> simp
  rcases track_insert slots a p with _ | slots' <;> rfl

@[simp] theorem record_allocation_gmmDescs (a p : Nat) (s : EfiState) :
    ((record_allocation a p s).2).gmmDescs = s.gmmDescs := by
  unfold record_allocation
  rcases s.tracker with _ | ⟨selfA, slots⟩ <;> simp
  rcases track_insert slots a p with _ | slots' <;> rfl

@[simp] theorem record_allocation_e820 (a p : Nat) (s : EfiState) :
    ((record_allocation a p s).2).e820 = s.e820 := by
  unfold record_allocation
  rcases s.tracker with _ | ⟨selfA, slots⟩ <;> simp
  rcases track_insert slots a p with _ | slots' <;> rfl

/-! ## Tracker scan lemmas -/

/-- When every slot is occupied (no sentinel address), the insertion scan
    falls off the end of the table. -/
theorem track_insert_of_full (slots : List allocated_page) (a p : Nat)
    (hfull : ∀ q ∈ slots, q.addr ≠ 0) : track_insert slots a p = none := by
  induction slots with
  | nil => rfl
  | cons q rest ih =>
      have hq : q.addr ≠ 0 := hfull q (List.mem_cons_self q rest)
      have hrest : ∀ q' ∈ rest, q'.addr ≠ 0 := fun q' hq' =>
        hfull q' (List.mem_cons_of_mem q hq')
      simp [track_insert, hq, ih hrest]

/-- A convenient concrete baseline state: empty logs, no pending firmware
    responses, no tracker, empty legacy map. -/
def initState : EfiState where
  fwResponses := []
  allocLog := []
  freeLog := []
  fwLive := []
  tracker := none
  gmmStatus := efi_status.success
  gmmDescs := []
  e820 := { below := { addr := 0, size := 0, type := 0 }, entries := [] }

/-- Concrete state whose tracker is completely full and whose firmware is
    about to hand out one successful allocation at 0x500000. -/
def fullTrackerState : EfiState :=
  { initState with
    fwResponses := [(true, 0x500000)]
    tracker :=
      some (0x9000, List.replicate MAX_ALLOCATED_PAGES { addr := 0x1000, num_pages := 1 }) }

/-! ## Claim C9 -/

/-- C9: for every address above 0x7fffffff and every page count,
    `grub_efi_allocate_pages` returns NULL with the state untouched — in
    particular no firmware `allocate_pages` call is logged. -/
theorem allocate_pages_above_ceiling (address pages : Nat) (s : EfiState)
    (h : 0x7fffffff < address) :
    grub_efi_allocate_pages address pages s = (0, s) := by
  unfold grub_efi_allocate_pages
  simp [h]

/-- Witness for C9 at address 0x80000000. -/
theorem allocate_pages_above_ceiling_witness :
    0x7fffffff < 0x80000000 ∧
      grub_efi_allocate_pages 0x80000000 1 initState = (0, initState) :=
  ⟨by norm_num, allocate_pages_above_ceiling 0x80000000 1 initState (by norm_num)⟩

/-! ## Claim C1 -/

/-- C1 counterexample: with a full tracker and a firmware that successfully
    allocates at base 0x500000 (the ghost live set shows the firmware
    allocation happened), `grub_efi_allocate_anypages` returns 0 (NULL), not
    the allocated base address, refuting the claim that the call still
    returns the allocated base address. -/
theorem anypages_tracker_full_counterexample :
    (grub_efi_allocate_anypages 4 fullTrackerState).1 = 0 ∧
      (grub_efi_allocate_anypages 4 fullTrackerState).2.fwLive = [0x500000] ∧
      (grub_efi_allocate_anypages 4 fullTrackerState).1 ≠ 0x500000 := by
  decide

/-- C1 amended: when the firmware allocation succeeds but the tracker has no
    free slot, both `grub_efi_allocate_anypages` and `grub_efi_allocate_pages`
    report the exhaustion and return NULL (0) to the caller, even though the
    firmware allocation succeeded (the range stays in the firmware live set,
    i.e. it is leaked rather than returned). -/
theorem tracker_full_allocation_returns_null (pages : Nat) (s : EfiState)
    (selfA : Nat) (slots : List allocated_page) (a : Nat)
    (rest : List (Bool × Nat))
    (htr : s.tracker = some (selfA, slots))
    (hfull : ∀ q ∈ slots, q.addr ≠ 0)
    (hresp : s.fwResponses = (true, a) :: rest) (ha : a ≠ 0) :
    ((grub_efi_allocate_anypages pages s).1 = 0 ∧
      (grub_efi_allocate_anypages pages s).2.fwLive = a :: s.fwLive) ∧
    (∀ address, 0 < address → address ≤ 0x7fffffff →
      (grub_efi_allocate_pages address pages s).1 = 0 ∧
        (grub_efi_allocate_pages address pages s).2.fwLive = a :: s.fwLive) := by
  have hhead : fwRespHead s = (true, a) := by simp [fwRespHead, hresp]
  have hins := track_insert_of_full slots a pages hfull
  constructor
  · unfold grub_efi_allocate_anypages
    rw [hhead]
    simp only [Bool.true_eq_false, if_false]
    unfold record_allocation
    simp [htr, hins, hhead]
  · intro address h0 hle
    have hcap : ¬ 0x7fffffff < address := by omega
    have haddr : address ≠ 0 := by omega
    unfold grub_efi_allocate_pages
    rw [if_neg hcap, hhead]
    simp only [haddr, if_neg, if_false, Bool.true_eq_false, ha]
    unfold record_allocation
    simp [htr, hins, hhead, ha]

/-- Witness for the amended C1 theorem at the concrete full-tracker state. -/
theorem tracker_full_allocation_returns_null_witness :
    (grub_efi_allocate_pages 0x100000 4 fullTrackerState).1 = 0 :=
  ((tracker_full_allocation_returns_null 4 fullTrackerState 0x9000
      (List.replicate MAX_ALLOCATED_PAGES { addr := 0x1000, num_pages := 1 })
      0x500000 [] rfl (by decide) rfl (by norm_num)).2
    0x100000 (by norm_num) (by norm_num)).1

/-! ## Claim C3 -/

/-- C3: when `grub_efi_allocate_pages` is called with address 0 and the
    firmware hands back base address 0, the code frees that zero allocation
    (one firmware `free_pages (0, pages)` call is logged), issues exactly one
    retry — a second firmware `allocate_pages` request of type MAX_ADDRESS
    with address argument 0x7fffffff, below the 2 GiB ceiling — and any
    non-NULL value finally returned to the caller is the nonzero base
    address of that second, successful firmware allocation; address 0 is
    never presented to the caller as a successful allocation. -/
theorem allocate_pages_zero_address_retry (pages : Nat) (s : EfiState)
    (rest : List (Bool × Nat)) (hresp : s.fwResponses = (true, 0) :: rest) :
    (grub_efi_allocate_pages 0 pages s).2.freeLog = s.freeLog ++ [(0, pages)] ∧
    (grub_efi_allocate_pages 0 pages s).2.allocLog =
      s.allocLog ++ [(alloc_type.max_address, pages, 0x7fffffff),
                     (alloc_type.max_address, pages, 0x7fffffff)] ∧
    ((grub_efi_allocate_pages 0 pages s).1 ≠ 0 →
      rest.head? = some (true, (grub_efi_allocate_pages 0 pages s).1)) := by
  have hhead : fwRespHead s = (true, 0) := by simp [fwRespHead, hresp]
  unfold grub_efi_allocate_pages
  norm_num [hhead]
  rcases hrest : rest with _ | ⟨⟨ok2, a2⟩, rest'⟩
  · have hh2 : fwRespHead (fw_allocate_pages alloc_type.max_address pages 0x7fffffff s)
        = (false, 0) := by simp [fwRespHead, hresp, hrest]
    simp [hh2]
  · have hh2 : fwRespHead (fw_allocate_pages alloc_type.max_address pages 0x7fffffff s)
        = (ok2, a2) := by simp [fwRespHead, hresp, hrest]
    rcases ok2 with _ | _
    · simp [hh2]
    · rw [hh2]
      norm_num
      have hrec : (record_allocation a2 pages
          (grub_efi_free_pages 0 pages
            (fw_allocate_pages alloc_type.max_address pages 0x7fffffff
              (fw_allocate_pages alloc_type.max_address pages 0x7fffffff s)))).1 = a2 ∨
          (record_allocation a2 pages
          (grub_efi_free_pages 0 pages
            (fw_allocate_pages alloc_type.max_address pages 0x7fffffff
              (fw_allocate_pages alloc_type.max_address pages 0x7fffffff s)))).1 = 0 := by
        unfold record_allocation
        rcases htr : (grub_efi_free_pages 0 pages
            (fw_allocate_pages alloc_type.max_address pages 0x7fffffff
              (fw_allocate_pages alloc_type.max_address pages 0x7fffffff s))).tracker
          with _ | ⟨selfA, slots⟩
        · simp
        · rcases hti : track_insert slots a2 pages with _ | slots' <;> simp [htr, hti]
      rcases hrec with h | h <;> simp [h]

/-- Concrete state whose firmware first hands out base address 0 and then a
    normal allocation at 0x300000. -/
def zeroFirstState : EfiState :=
  { initState with fwResponses := [(true, 0), (true, 0x300000)] }

/-- Witness for C3 at the concrete zero-then-0x300000 firmware stream. -/
theorem allocate_pages_zero_address_retry_witness :
    (grub_efi_allocate_pages 0 3 zeroFirstState).2.freeLog =
        zeroFirstState.freeLog ++ [(0, 3)] ∧
    (grub_efi_allocate_pages 0 3 zeroFirstState).2.allocLog =
      zeroFirstState.allocLog ++
        [(alloc_type.max_address, 3, 0x7fffffff), (alloc_type.max_address, 3, 0x7fffffff)] ∧
    ((grub_efi_allocate_pages 0 3 zeroFirstState).1 ≠ 0 →
      [((true : Bool), 0x300000)].head? =
        some (true, (grub_efi_allocate_pages 0 3 zeroFirstState).1)) :=
  allocate_pages_zero_address_retry 3 zeroFirstState [(true, 0x300000)] rfl

/-! ## Further projection lemmas for the allocators -/

@[simp] theorem grub_efi_allocate_pages_e820 (a p : Nat) (s : EfiState) :
    (grub_efi_allocate_pages a p s).2.e820 = s.e820 := by
  simp only [grub_efi_allocate_pages]
  split_ifs <;> simp

@[simp] theorem grub_efi_allocate_pages_gmmStatus (a p : Nat) (s : EfiState) :
    (grub_efi_allocate_pages a p s).2.gmmStatus = s.gmmStatus := by
  simp only [grub_efi_allocate_pages]
  split_ifs <;> simp

@[simp] theorem grub_efi_allocate_pages_gmmDescs (a p : Nat) (s : EfiState) :
    (grub_efi_allocate_pages a p s).2.gmmDescs = s.gmmDescs := by
  simp only [grub_efi_allocate_pages]
  split_ifs <;> simp

/-! ## Claim C2 -/

/-- Concrete state in which the memory-map reader reports Insufficient
    (buffer too small) while the buffer reads as one conventional-memory
    descriptor. -/
def insufficientState : EfiState :=
  { initState with
    fwResponses := [(true, 0x300000)]
    gmmStatus := efi_status.buffer_too_small
    gmmDescs :=
      [{ type := GRUB_EFI_CONVENTIONAL_MEMORY, physical_start := 0x200000,
         num_pages := 0x10 }] }

/-- C2 counterexample: with the reader classifying the firmware status as
    Insufficient (result 0, not full Success), `update_e820_map` does NOT
    abort: it proceeds to translation and leaves a non-empty legacy region
    table, refuting the claim that Insufficient aborts map construction with
    an empty table. -/
theorem insufficient_map_still_translates_counterexample :
    grub_efi_get_memory_map insufficientState.gmmStatus = 0 ∧
    (update_e820_map insufficientState).e820.entries =
      [{ addr := 0x200000, size := 0x10000, type := E820_RAM }] := by
  decide

/-- C2 amended: `update_e820_map` proceeds to translation whenever the
    scratch-buffer allocation succeeds and the Memory Map Reader result is
    not a hard error — that is, on full Success AND on Insufficient (the
    code only tests `result < 0`); only the Error outcome (and an allocation
    failure) aborts, and an abort leaves the legacy region table unchanged
    (hence still empty when it was empty before). -/
theorem update_e820_map_aborts_only_on_hard_error (s : EfiState) :
    (s.gmmStatus = efi_status.other_error → (update_e820_map s).e820 = s.e820) ∧
    ((grub_efi_allocate_pages 0 2 s).1 = 0 → (update_e820_map s).e820 = s.e820) ∧
    (s.gmmStatus ≠ efi_status.other_error → (grub_efi_allocate_pages 0 2 s).1 ≠ 0 →
      (update_e820_map s).e820 = e820_map_from_efi_map s.e820 s.gmmDescs) := by
  refine ⟨?_, ?_, ?_⟩
  · intro herr
    unfold update_e820_map
    dsimp only
    split
    · simp
    · rw [if_pos]
      · simp
      · simp [herr, grub_efi_get_memory_map]
  · intro halloc
    unfold update_e820_map
    dsimp only
    rw [if_pos halloc]
    simp
  · intro herr halloc
    unfold update_e820_map
    dsimp only
    rw [if_neg halloc, if_neg]
    · simp
    · rcases hst : s.gmmStatus with _ | _ | _ <;>
        simp_all [grub_efi_get_memory_map]

/-- Witness for the amended C2 theorem at the Insufficient concrete state. -/
theorem update_e820_map_aborts_only_on_hard_error_witness :
    (update_e820_map insufficientState).e820 =
      e820_map_from_efi_map insufficientState.e820 insufficientState.gmmDescs :=
  (update_e820_map_aborts_only_on_hard_error insufficientState).2.2
    (by decide) (by decide)

/-! ## Claim C6 -/

/-- C6 (code bug in `add_memory_region`): with an empty table (count 0) the
    merge check reads `e820_map[-1]`, i.e. memory outside the index range
    [0, count).  At the same append (start 0x1000, size 0x1000, type RAM),
    if the junk word below the table happens to satisfy the merge test the
    region is folded into that junk and never appended (count stays 0),
    while with non-matching junk it is appended normally — so the placement
    and content of the first appended region depend on memory outside the
    table. -/
theorem add_memory_region_reads_below_table :
    add_memory_region
        { below := { addr := 0, size := 0x1000, type := 1 }, entries := [] }
        0x1000 0x1000 1 =
      { below := { addr := 0, size := 0x2000, type := 1 }, entries := [] } ∧
    add_memory_region
        { below := { addr := 0, size := 0, type := 0 }, entries := [] }
        0x1000 0x1000 1 =
      { below := { addr := 0, size := 0, type := 0 },
        entries := [{ addr := 0x1000, size := 0x1000, type := 1 }] } := by
  decide

/-! ## Claim C5 -/

/-- C5: the shared merge rule of `add_memory_region` — when the table is
    non-empty, not full, and the last stored entry has the same type and its
    end address (mod 2^64) equals the new region's start, the last entry is
    extended in place instead of a new entry being appended; consequently
    two adjacent same-type byte-contiguous descriptors translate to one
    merged entry whose length is the sum, and two same-type non-contiguous
    descriptors translate to two separate entries. -/
theorem add_memory_region_merge_rule :
    (∀ (m : E820Map) (start size ty : Nat) (h : m.entries ≠ []),
      m.entries.length ≠ E820_MAX →
      u64 ((m.entries.getLast h).addr + (m.entries.getLast h).size) = start →
      (m.entries.getLast h).type = ty →
      add_memory_region m start size ty =
        { m with entries := m.entries.dropLast ++
            [{ m.entries.getLast h with
                size := u64 ((m.entries.getLast h).size + size) }] }) ∧
    (e820_map_from_efi_map
        { below := { addr := 0, size := 0, type := 0 }, entries := [] }
        [{ type := GRUB_EFI_CONVENTIONAL_MEMORY, physical_start := 0x200000,
           num_pages := 0x10 },
         { type := GRUB_EFI_CONVENTIONAL_MEMORY, physical_start := 0x210000,
           num_pages := 0x10 }]).entries =
      [{ addr := 0x200000, size := 0x20000, type := E820_RAM }] ∧
    (e820_map_from_efi_map
        { below := { addr := 0, size := 0, type := 0 }, entries := [] }
        [{ type := GRUB_EFI_CONVENTIONAL_MEMORY, physical_start := 0x200000,
           num_pages := 0x10 },
         { type := GRUB_EFI_CONVENTIONAL_MEMORY, physical_start := 0x220000,
           num_pages := 0x10 }]).entries =
      [{ addr := 0x200000, size := 0x10000, type := E820_RAM },
       { addr := 0x220000, size := 0x10000, type := E820_RAM }] := by
  refine ⟨?_, by decide, by decide⟩
  intro m start size ty h hlen hmerge hty
  unfold add_memory_region
  rw [if_neg hlen]
  have hld : m.entries.getLastD m.below = m.entries.getLast h := by
    rw [List.getLastD_eq_getLast?, List.getLast?_eq_getLast _ h]
    rfl
  have hne : m.entries.isEmpty = false := by
    simpa [List.isEmpty_iff] using h
  dsimp only
  rw [hld, if_pos ⟨hmerge, hty⟩, hne]
  simp

/-- Witness for the merge-rule part of C5 at a concrete one-entry table. -/
theorem add_memory_region_merge_rule_witness :
    add_memory_region
        { below := { addr := 0, size := 0, type := 0 },
          entries := [{ addr := 0x1000, size := 0x1000, type := 1 }] }
        0x2000 0x1000 1 =
      { below := { addr := 0, size := 0, type := 0 },
        entries := [{ addr := 0x1000, size := 0x2000, type := 1 }] } :=
  ((add_memory_region_merge_rule).1
      { below := { addr := 0, size := 0, type := 0 },
        entries := [{ addr := 0x1000, size := 0x1000, type := 1 }] }
      0x2000 0x1000 1 (by decide) (by decide) (by decide) (by decide)).trans
    (by decide)

/-! ## Claim C4 -/

/-- C4: a RAM-classified descriptor overlapping the video/ROM hole
    [0xA0000, 0x100000) while starting below 0x100000 is split by the
    translator: the portion below 0xA0000 (when the descriptor starts below
    0xA0000) is appended as RAM, the portion at or above 0x100000 (when the
    descriptor ends above 0x100000) is appended as RAM, and nothing covering
    the hole is appended.  The hypothesis on `m.below` rules out the
    unguarded `e820_map[-1]` merge (see the C6 theorem).  In particular a
    RAM descriptor spanning [0x90000, 0x110000) yields exactly the entries
    [0x90000, 0xA0000) and [0x100000, 0x110000), and one fully inside the
    hole, [0xA0000, 0xF0000), yields zero entries. -/
theorem ram_descriptor_hole_split :
    (∀ (m : E820Map) (d : efi_memory_descriptor),
      (d.type = GRUB_EFI_LOADER_CODE ∨ d.type = GRUB_EFI_LOADER_DATA ∨
       d.type = GRUB_EFI_BOOT_SERVICES_CODE ∨ d.type = GRUB_EFI_BOOT_SERVICES_DATA ∨
       d.type = GRUB_EFI_CONVENTIONAL_MEMORY) →
      m.below.type ≠ E820_RAM →
      d.physical_start < 0x100000 →
      0xA0000 < u64 (d.physical_start + u64 (d.num_pages * 4096)) →
      (e820_map_from_efi_map m [d]).entries =
        (if d.physical_start < 0xA0000 then
          [{ addr := d.physical_start, size := 0xA0000 - d.physical_start,
             type := E820_RAM }]
         else []) ++
        (if 0x100000 < u64 (d.physical_start + u64 (d.num_pages * 4096)) then
          [{ addr := 0x100000,
             size := u64 (d.physical_start + u64 (d.num_pages * 4096)) - 0x100000,
             type := E820_RAM }]
         else [])) ∧
    (e820_map_from_efi_map
        { below := { addr := 0, size := 0, type := 0 }, entries := [] }
        [{ type := GRUB_EFI_CONVENTIONAL_MEMORY, physical_start := 0x90000,
           num_pages := 0x80 }]).entries =
      [{ addr := 0x90000, size := 0x10000, type := E820_RAM },
       { addr := 0x100000, size := 0x10000, type := E820_RAM }] ∧
    (e820_map_from_efi_map
        { below := { addr := 0, size := 0, type := 0 }, entries := [] }
        [{ type := GRUB_EFI_CONVENTIONAL_MEMORY, physical_start := 0xA0000,
           num_pages := 0x50 }]).entries = [] := by
  refine ⟨?_, by decide, by decide⟩
  intro m d hty hbelow hstart hend
  have hstep : e820_map_from_efi_map m [d] =
      e820_desc_step { m with entries := [] } d := rfl
  rw [hstep]
  unfold e820_desc_step
  have hty1 : ¬ d.type = GRUB_EFI_ACPI_RECLAIM_MEMORY := by
    rcases hty with h | h | h | h | h <;>
      simp [h, GRUB_EFI_LOADER_CODE, GRUB_EFI_LOADER_DATA, GRUB_EFI_BOOT_SERVICES_CODE,
        GRUB_EFI_BOOT_SERVICES_DATA, GRUB_EFI_CONVENTIONAL_MEMORY,
        GRUB_EFI_ACPI_RECLAIM_MEMORY]
  have hty2 : ¬ (d.type = GRUB_EFI_RUNTIME_SERVICES_CODE ∨
      d.type = GRUB_EFI_RUNTIME_SERVICES_DATA ∨
      d.type = GRUB_EFI_RESERVED_MEMORY_TYPE ∨
      d.type = GRUB_EFI_MEMORY_MAPPED_IO_TYPE ∨
      d.type = GRUB_EFI_MEMORY_MAPPED_IO_PORT_SPACE ∨
      d.type = GRUB_EFI_UNUSABLE_MEMORY ∨
      d.type = GRUB_EFI_PAL_CODE) := by
    rcases hty with h | h | h | h | h <;>
      simp [h, GRUB_EFI_LOADER_CODE, GRUB_EFI_LOADER_DATA, GRUB_EFI_BOOT_SERVICES_CODE,
        GRUB_EFI_BOOT_SERVICES_DATA, GRUB_EFI_CONVENTIONAL_MEMORY,
        GRUB_EFI_RUNTIME_SERVICES_CODE, GRUB_EFI_RUNTIME_SERVICES_DATA,
        GRUB_EFI_RESERVED_MEMORY_TYPE, GRUB_EFI_MEMORY_MAPPED_IO_TYPE,
        GRUB_EFI_MEMORY_MAPPED_IO_PORT_SPACE, GRUB_EFI_UNUSABLE_MEMORY,
        GRUB_EFI_PAL_CODE]
  rw [if_neg hty1, if_neg hty2, if_pos hty]
  dsimp only
  rw [if_pos ⟨hstart, hend⟩]
  have hnomerge : ∀ (start' : Nat),
      ¬ (u64 (m.below.addr + m.below.size) = start' ∧ m.below.type = E820_RAM) :=
    fun _ hc => hbelow hc.2
  have hadd1 : add_memory_region { m with entries := [] } d.physical_start
      (0xA0000 - d.physical_start) E820_RAM =
      { m with entries :=
          [⟨d.physical_start, 0xA0000 - d.physical_start, E820_RAM⟩] } := by
    unfold add_memory_region
    rw [if_neg (by simp [E820_MAX])]
    dsimp only [List.getLastD_nil]
    rw [if_neg (hnomerge _)]
    simp
  by_cases hhigh : u64 (d.physical_start + u64 (d.num_pages * 4096)) ≤ 0x100000
  · rw [if_pos hhigh]
    by_cases hlow : d.physical_start < 0xA0000
    · rw [if_pos hlow, hadd1]
      simp [hlow, not_lt.mpr hhigh]
    · rw [if_neg hlow]
      simp [hlow, not_lt.mpr hhigh]
  · rw [if_neg hhigh]
    have hhigh' : 0x100000 < u64 (d.physical_start + u64 (d.num_pages * 4096)) :=
      not_le.mp hhigh
    by_cases hlow : d.physical_start < 0xA0000
    · rw [if_pos hlow, hadd1]
      have hadd2 : add_memory_region
          { m with entries :=
              [⟨d.physical_start, 0xA0000 - d.physical_start, E820_RAM⟩] }
          0x100000 (u64 (d.physical_start + u64 (d.num_pages * 4096)) - 0x100000)
          E820_RAM =
          { m with entries :=
              [⟨d.physical_start, 0xA0000 - d.physical_start, E820_RAM⟩,
               ⟨0x100000,
                u64 (d.physical_start + u64 (d.num_pages * 4096)) - 0x100000,
                E820_RAM⟩] } := by
        unfold add_memory_region
        rw [if_neg (by simp [E820_MAX])]
        dsimp only [List.getLastD_cons, List.getLastD_nil]
        rw [if_neg (by
          intro hc
          have h1 := hc.1
          simp only [List.getLastD_cons, List.getLastD_nil] at h1
          have h2 : d.physical_start + (0xA0000 - d.physical_start) = 0xA0000 := by
            omega
          rw [h2] at h1
          unfold u64 at h1
          norm_num at h1)]
        simp
      rw [hadd2]
      simp [hlow, hhigh']
    · rw [if_neg hlow]
      have hadd3 : add_memory_region { m with entries := [] }
          0x100000 (u64 (d.physical_start + u64 (d.num_pages * 4096)) - 0x100000)
          E820_RAM =
          { m with entries :=
              [⟨0x100000,
                u64 (d.physical_start + u64 (d.num_pages * 4096)) - 0x100000,
                E820_RAM⟩] } := by
        unfold add_memory_region
        rw [if_neg (by simp [E820_MAX])]
        dsimp only [List.getLastD_nil]
        rw [if_neg (hnomerge _)]
        simp
      rw [hadd3]
      simp [hlow, hhigh']

/-- Witness for the general split of C4 at the concrete [0x90000, 0x110000)
    RAM descriptor. -/
theorem ram_descriptor_hole_split_witness :
    (e820_map_from_efi_map
        { below := { addr := 0, size := 0, type := 0 }, entries := [] }
        [{ type := GRUB_EFI_CONVENTIONAL_MEMORY, physical_start := 0x90000,
           num_pages := 0x80 }]).entries =
      [{ addr := 0x90000, size := 0x10000, type := E820_RAM },
       { addr := 0x100000, size := 0x10000, type := E820_RAM }] :=
  ((ram_descriptor_hole_split).1
      { below := { addr := 0, size := 0, type := 0 }, entries := [] }
      { type := GRUB_EFI_CONVENTIONAL_MEMORY, physical_start := 0x90000,
        num_pages := 0x80 }
      (Or.inr (Or.inr (Or.inr (Or.inr rfl)))) (by decide) (by decide)
      (by decide)).trans (by decide)

/-! ## Claim C7 -/

/-- C7: the continuation protocol of `get_mmap_entry` — every out-of-range
    continuation (negative or at least the region count) writes a
    zero-length descriptor and returns 0 (so continuation 0 on an empty
    table does exactly that), and walking a 3-entry table from continuation
    0 visits the three entries in stored order, the non-final calls
    returning the next index and the final call returning 0. -/
theorem get_mmap_entry_continuation_protocol :
    (∀ (map : List e820_entry) (d : mmar_desc) (cont : Int),
      (cont < 0 ∨ (map.length : Int) ≤ cont) →
      get_mmap_entry map d cont = ({ d with desc_len := 0 }, 0)) ∧
    (∀ d : mmar_desc, get_mmap_entry [] d 0 = ({ d with desc_len := 0 }, 0)) ∧
    (∀ (e1 e2 e3 : e820_entry) (d : mmar_desc),
      get_mmap_entry [e1, e2, e3] d 0 =
        ({ desc_len := MMAR_DESC_LENGTH, addr := e1.addr, length := e1.size,
           type := e1.type }, 1) ∧
      get_mmap_entry [e1, e2, e3] d 1 =
        ({ desc_len := MMAR_DESC_LENGTH, addr := e2.addr, length := e2.size,
           type := e2.type }, 2) ∧
      get_mmap_entry [e1, e2, e3] d 2 =
        ({ desc_len := MMAR_DESC_LENGTH, addr := e3.addr, length := e3.size,
           type := e3.type }, 0)) := by
  refine ⟨?_, ?_, ?_⟩
  · intro map d cont h
    unfold get_mmap_entry
    rw [if_pos h]
  · intro d
    rfl
  · intro e1 e2 e3 d
    exact ⟨rfl, rfl, rfl⟩

/-- Witness for the out-of-range rule of C7 at continuation 5 on a 1-entry
    table. -/
theorem get_mmap_entry_continuation_protocol_witness :
    get_mmap_entry [{ addr := 8, size := 9, type := 1 }]
        { desc_len := 20, addr := 5, length := 6, type := 7 } 5 =
      ({ desc_len := 0, addr := 5, length := 6, type := 7 }, 0) :=
  (get_mmap_entry_continuation_protocol).1
    [{ addr := 8, size := 9, type := 1 }]
    { desc_len := 20, addr := 5, length := 6, type := 7 } 5
    (Or.inr (by norm_num))

/-! ## Claim C8 -/

/-- A fini-loop iteration leaves the state unchanged when every tracker
    slot is the sentinel. -/
theorem fini_step_of_zero (s : EfiState) (i selfA : Nat)
    (slots : List allocated_page) (htr : s.tracker = some (selfA, slots))
    (hz : ∀ p ∈ slots, p.addr = 0) : fini_step s i = s := by
  unfold fini_step
  rcases hget : slots[i]? with _ | p
  · simp [htr, hget]
  · simp [htr, hget, hz p (List.getElem?_mem hget)]

/-- The whole fini loop is a no-op when every tracker slot is the
    sentinel. -/
theorem fini_loop_of_all_zero (l : List Nat) (s : EfiState) (selfA : Nat)
    (slots : List allocated_page) (htr : s.tracker = some (selfA, slots))
    (hz : ∀ p ∈ slots, p.addr = 0) : fini_loop s l = s := by
  induction l with
  | nil => rfl
  | cons i rest ih =>
      have hstep := fini_step_of_zero s i selfA slots htr hz
      calc fini_loop s (i :: rest) = fini_loop (fini_step s i) rest := rfl
        _ = fini_loop s rest := by rw [hstep]
        _ = s := ih

/-- The state at the start of the boot scenario of C8: the firmware will
    satisfy exactly the two allocations `startup()` performs (tracker
    storage at `a1`, memory-map scratch buffer at `a2`). -/
def bootState (a1 a2 : Nat) (descs : List efi_memory_descriptor)
    (m : E820Map) : EfiState where
  fwResponses := [(true, a1), (true, a2)]
  allocLog := []
  freeLog := []
  fwLive := []
  tracker := none
  gmmStatus := efi_status.success
  gmmDescs := descs
  e820 := m

/-- The state after `grub_efi_mm_init` in the C8 scenario: scratch buffer
    already freed (slot cleared), tracker installed at `a1` with all slots
    sentinel again. -/
def afterInitState (a1 a2 : Nat) (descs : List efi_memory_descriptor)
    (m : E820Map) : EfiState where
  fwResponses := []
  allocLog := [(alloc_type.max_address, 1, 0x7fffffff),
               (alloc_type.max_address, 2, 0x7fffffff)]
  freeLog := [(a2, 2)]
  fwLive := [a1]
  tracker := some (a1, { addr := 0, num_pages := 2 } ::
    List.replicate 255 { addr := 0, num_pages := 0 })
  gmmStatus := efi_status.success
  gmmDescs := descs
  e820 := e820_map_from_efi_map m descs

theorem mm_init_computation (a1 a2 : Nat) (descs : List efi_memory_descriptor)
    (m : E820Map) (ha1 : a1 ≠ 0) (ha2 : a2 ≠ 0) (hne : a1 ≠ a2) :
    grub_efi_mm_init (bootState a1 a2 descs m) =
      afterInitState a1 a2 descs m := by
  have h1 : grub_efi_allocate_pages 0 1 (bootState a1 a2 descs m) =
      (a1, { fwResponses := [(true, a2)]
             allocLog := [(alloc_type.max_address, 1, 0x7fffffff)]
             freeLog := []
             fwLive := [a1]
             tracker := none
             gmmStatus := efi_status.success
             gmmDescs := descs
             e820 := m }) := by
    unfold grub_efi_allocate_pages
    norm_num [bootState, fwRespHead, fw_allocate_pages, record_allocation, ha1]
  unfold grub_efi_mm_init
  rw [h1]
  norm_num [ha1]
  unfold update_e820_map
  have h2 : grub_efi_allocate_pages 0 2
      { fwResponses := [(true, a2)]
        allocLog := [(alloc_type.max_address, 1, 0x7fffffff)]
        freeLog := []
        fwLive := [a1]
        tracker := some (a1, List.replicate MAX_ALLOCATED_PAGES
          { addr := 0, num_pages := 0 })
        gmmStatus := efi_status.success
        gmmDescs := descs
        e820 := m } =
      (a2, { fwResponses := []
             allocLog := [(alloc_type.max_address, 1, 0x7fffffff),
                          (alloc_type.max_address, 2, 0x7fffffff)]
             freeLog := []
             fwLive := [a2, a1]
             tracker := some (a1, { addr := a2, num_pages := 2 } ::
               List.replicate 255 { addr := 0, num_pages := 0 })
             gmmStatus := efi_status.success
             gmmDescs := descs
             e820 := m }) := by
    unfold grub_efi_allocate_pages
    norm_num [fwRespHead, fw_allocate_pages, record_allocation, ha2,
      MAX_ALLOCATED_PAGES, ALLOCATED_PAGES_SIZE, List.replicate_succ,
      track_insert]
  rw [h2]
  norm_num [ha2, grub_efi_get_memory_map]
  unfold grub_efi_free_pages
  norm_num [hne, track_clear, afterInitState]

/-- C8: `startup()` immediately followed by `shutdown()` with no intervening
    allocations frees, through the page gateway, exactly the ranges the
    firmware handed out — the scratch buffer (freed once during startup,
    clearing its tracker slot) and finally the bookkeeping storage itself —
    so the firmware live set ends empty: no firmware-visible page range is
    leaked, and nothing is freed twice. -/
theorem mm_init_fini_frees_all (a1 a2 : Nat) (descs : List efi_memory_descriptor)
    (m : E820Map) (ha1 : a1 ≠ 0) (ha2 : a2 ≠ 0) (hne : a1 ≠ a2) :
    (grub_efi_mm_fini (grub_efi_mm_init (bootState a1 a2 descs m))).freeLog =
        [(a2, 2), (a1, 1)] ∧
    (grub_efi_mm_fini (grub_efi_mm_init (bootState a1 a2 descs m))).fwLive = [] := by
  rw [mm_init_computation a1 a2 descs m ha1 ha2 hne]
  have hz : ∀ p ∈ ({ addr := 0, num_pages := 2 } ::
      List.replicate 255 { addr := 0, num_pages := 0 } : List allocated_page),
      p.addr = 0 := by
    intro p hp
    rcases List.mem_cons.mp hp with rfl | hp'
    · rfl
    · rw [List.eq_of_mem_replicate hp']
  have hloop := fini_loop_of_all_zero (List.range MAX_ALLOCATED_PAGES)
    (afterInitState a1 a2 descs m) a1
    ({ addr := 0, num_pages := 2 } ::
      List.replicate 255 { addr := 0, num_pages := 0 }) rfl hz
  unfold grub_efi_mm_fini
  rw [show (afterInitState a1 a2 descs m).tracker =
    some (a1, { addr := 0, num_pages := 2 } ::
      List.replicate 255 { addr := 0, num_pages := 0 }) from rfl]
  simp only [hloop]
  unfold grub_efi_free_pages
  norm_num [afterInitState]

/-- Witness for C8 at concrete firmware addresses. -/
theorem mm_init_fini_frees_all_witness :
    (grub_efi_mm_fini (grub_efi_mm_init (bootState 0x100000 0x200000 []
        { below := { addr := 0, size := 0, type := 0 }, entries := [] }))).freeLog =
      [(0x200000, 2), (0x100000, 1)] ∧
    (grub_efi_mm_fini (grub_efi_mm_init (bootState 0x100000 0x200000 []
        { below := { addr := 0, size := 0, type := 0 }, entries := [] }))).fwLive =
      [] :=
  mm_init_fini_frees_all 0x100000 0x200000 []
    { below := { addr := 0, size := 0, type := 0 }, entries := [] }
    (by norm_num) (by norm_num) (by norm_num)

/-! ## Claim C10: tracker invariant machinery -/

/-- The live (non-sentinel) base addresses of a slot array, in order. -/
def liveAddrs : List allocated_page → List Nat
  | [] => []
  | p :: rest => if p.addr = 0 then liveAddrs rest else p.addr :: liveAddrs rest

/-- The live addresses of the tracker (empty when no tracker exists). -/
def trackerLive : Option (Nat × List allocated_page) → List Nat
  | none => []
  | some (_, slots) => liveAddrs slots

/-- The tracker invariant of the claim: no two live slots share a base
    address, and every live slot's address is a firmware range that is
    still allocated (has not been freed through the gateway). -/
def TrackerInv (s : EfiState) : Prop :=
  (trackerLive s.tracker).Nodup ∧ ∀ a ∈ trackerLive s.tracker, a ∈ s.fwLive

instance trackerInvDec (s : EfiState) : Decidable (TrackerInv s) :=
  inferInstanceAs (Decidable ((trackerLive s.tracker).Nodup ∧
    ∀ a ∈ trackerLive s.tracker, a ∈ s.fwLive))

theorem mem_liveAddrs_ne_zero (slots : List allocated_page) (a : Nat)
    (h : a ∈ liveAddrs slots) : a ≠ 0 := by
  induction slots with
  | nil => simp [liveAddrs] at h
  | cons p rest ih =>
      by_cases hp : p.addr = 0
      · rw [liveAddrs, if_pos hp] at h
        exact ih h
      · rw [liveAddrs, if_neg hp] at h
        rcases List.mem_cons.mp h with rfl | h'
        · exact hp
        · exact ih h'

theorem liveAddrs_track_clear (slots : List allocated_page) (a : Nat) :
    liveAddrs (track_clear slots a) = (liveAddrs slots).erase a := by
  induction slots with
  | nil => rfl
  | cons p rest ih =>
      by_cases hpa : p.addr = a
      · rw [track_clear, if_pos hpa]
        by_cases hp0 : p.addr = 0
        · rw [liveAddrs, liveAddrs, if_pos hp0, if_pos rfl]
          rw [List.erase_of_not_mem]
          intro hmem
          exact mem_liveAddrs_ne_zero rest a hmem (by omega)
        · rw [liveAddrs, liveAddrs, if_pos rfl, if_neg hp0, hpa,
            List.erase_cons_head]
      · rw [track_clear, if_neg hpa]
        by_cases hp0 : p.addr = 0
        · rw [liveAddrs, liveAddrs, if_pos hp0, if_pos hp0]
          exact ih
        · rw [liveAddrs, liveAddrs, if_neg hp0, if_neg hp0,
            List.erase_cons_tail, ih]
          simp [hpa]

theorem track_insert_liveAddrs (slots slots' : List allocated_page) (a n : Nat)
    (h : track_insert slots a n = some slots') (ha : a ≠ 0) :
    List.Perm (liveAddrs slots') (a :: liveAddrs slots) := by
  induction slots generalizing slots' with
  | nil => simp [track_insert] at h
  | cons p rest ih =>
      by_cases hp : p.addr = 0
      · rw [track_insert, if_pos hp] at h
        cases h
        rw [liveAddrs, liveAddrs, if_pos hp]
        dsimp only
        rw [if_neg ha]
      · rw [track_insert, if_neg hp] at h
        rcases Option.map_eq_some'.mp h with ⟨rest', hrec, rfl⟩
        rw [liveAddrs, liveAddrs, if_neg hp, if_neg hp]
        exact ((ih rest' hrec).cons p.addr).trans (List.Perm.swap a p.addr _)

theorem track_insert_zero_liveAddrs (slots slots' : List allocated_page) (n : Nat)
    (h : track_insert slots 0 n = some slots') :
    liveAddrs slots' = liveAddrs slots := by
  induction slots generalizing slots' with
  | nil => simp [track_insert] at h
  | cons p rest ih =>
      by_cases hp : p.addr = 0
      · rw [track_insert, if_pos hp] at h
        cases h
        rw [liveAddrs, liveAddrs, if_pos hp]
        dsimp only
        rw [if_pos rfl]
      · rw [track_insert, if_neg hp] at h
        rcases Option.map_eq_some'.mp h with ⟨rest', hrec, rfl⟩
        rw [liveAddrs, liveAddrs, if_neg hp, if_neg hp, ih rest' hrec]

theorem trackerInv_mono (s s' : EfiState) (h : TrackerInv s)
    (htr : s'.tracker = s.tracker) (hl : ∀ x ∈ s.fwLive, x ∈ s'.fwLive) :
    TrackerInv s' := by
  unfold TrackerInv at *
  rw [htr]
  exact ⟨h.1, fun a ha => hl a (h.2 a ha)⟩

/-- Freeing can only remove live addresses from the tracker, never add. -/
theorem trackerLive_free_subset (a p : Nat) (s : EfiState) :
    ∀ x ∈ trackerLive (grub_efi_free_pages a p s).tracker,
      x ∈ trackerLive s.tracker := by
  intro x hx
  rcases htr : s.tracker with _ | ⟨selfA, slots⟩
  · rw [grub_efi_free_pages_tracker_none a p s htr] at hx
    simp [trackerLive] at hx
  · by_cases hsa : selfA = a
    · rw [grub_efi_free_pages_tracker_self a p s selfA slots htr hsa] at hx
      exact hx
    · rw [grub_efi_free_pages_tracker_other a p s selfA slots htr hsa] at hx
      have hx' : x ∈ (liveAddrs slots).erase a := by
        rw [← liveAddrs_track_clear]
        exact hx
      exact List.mem_of_mem_erase hx'

/-- Lemma: `grub_efi_free_pages` preserves the tracker invariant, provided the
    freed address is 0 or is not the tracker storage's own address. -/
theorem grub_efi_free_pages_inv (a p : Nat) (s : EfiState) (hinv : TrackerInv s)
    (hsafe : a = 0 ∨ ∀ selfA slots, s.tracker = some (selfA, slots) → a ≠ selfA) :
    TrackerInv (grub_efi_free_pages a p s) := by
  unfold TrackerInv at hinv ⊢
  rw [grub_efi_free_pages_fwLive]
  rcases htr : s.tracker with _ | ⟨selfA, slots⟩
  · rw [grub_efi_free_pages_tracker_none a p s htr]
    exact ⟨List.nodup_nil, by simp [trackerLive]⟩
  · rw [htr] at hinv
    by_cases hsa : selfA = a
    · rw [grub_efi_free_pages_tracker_self a p s selfA slots htr hsa]
      refine ⟨hinv.1, fun x hx => ?_⟩
      have hx0 : x ≠ 0 := mem_liveAddrs_ne_zero slots x hx
      have hmem := hinv.2 x hx
      have ha0 : a = 0 := by
        rcases hsafe with h0 | hall
        · exact h0
        · exact absurd hsa.symm (hall selfA slots htr)
      rw [ha0]
      exact (List.mem_erase_of_ne (by omega)).mpr hmem
    · rw [grub_efi_free_pages_tracker_other a p s selfA slots htr hsa]
      constructor
      · show (liveAddrs (track_clear slots a)).Nodup
        rw [liveAddrs_track_clear]
        exact hinv.1.erase a
      · intro x hx
        have hx' : x ∈ (liveAddrs slots).erase a := by
          rw [← liveAddrs_track_clear]
          exact hx
        have hxa := (List.Nodup.mem_erase_iff hinv.1).mp hx'
        exact (List.mem_erase_of_ne hxa.1).mpr (hinv.2 x hxa.2)

/-- Lemma: `record_allocation` preserves the tracker invariant when the recorded
    address is 0 (a no-op on the live set) or is firmware-live and not
    already tracked. -/
theorem record_allocation_inv (a n : Nat) (s : EfiState) (hinv : TrackerInv s)
    (ha : a = 0 ∨ (a ∈ s.fwLive ∧ a ∉ trackerLive s.tracker)) :
    TrackerInv (record_allocation a n s).2 := by
  rcases htr : s.tracker with _ | ⟨selfA, slots⟩
  · have heq : (record_allocation a n s).2 = s := by
      simp [record_allocation, htr]
    rw [heq]
    exact hinv
  · rcases hti : track_insert slots a n with _ | slots'
    · have heq : (record_allocation a n s).2 = s := by
        simp [record_allocation, htr, hti]
      rw [heq]
      exact hinv
    · have heq : (record_allocation a n s).2 =
          { s with tracker := some (selfA, slots') } := by
        simp [record_allocation, htr, hti]
      rw [heq]
      have hinv' : (liveAddrs slots).Nodup ∧ ∀ x ∈ liveAddrs slots, x ∈ s.fwLive := by
        unfold TrackerInv at hinv
        rw [htr] at hinv
        exact hinv
      unfold TrackerInv
      show (liveAddrs slots').Nodup ∧ ∀ x ∈ liveAddrs slots', x ∈ s.fwLive
      by_cases ha0 : a = 0
      · rw [ha0] at hti
        rw [track_insert_zero_liveAddrs slots slots' n hti]
        exact hinv'
      · rcases ha with h0 | ⟨hmem, hnotin⟩
        · exact absurd h0 ha0
        · have hnotin' : a ∉ liveAddrs slots := by
            rw [htr] at hnotin
            exact hnotin
          have hperm := track_insert_liveAddrs slots slots' a n hti ha0
          constructor
          · rw [hperm.nodup_iff]
            exact List.nodup_cons.mpr ⟨hnotin', hinv'.1⟩
          · intro x hx
            rcases List.mem_cons.mp (hperm.mem_iff.mp hx) with rfl | hx'
            · exact hmem
            · exact hinv'.2 x hx'

/-- A successful head response is among the first two pending responses. -/
theorem fwRespHead_mem_take (s : EfiState) (h : (fwRespHead s).1 = true) :
    fwRespHead s ∈ s.fwResponses.take 2 := by
  unfold fwRespHead at *
  rcases hl : s.fwResponses with _ | ⟨r, rest⟩
  · rw [hl] at h
    simp at h
  · simp

/-- A successful second response is among the first two pending responses. -/
theorem fwRespHead_tail_mem_take (s : EfiState)
    (h : (s.fwResponses.tail.headD (false, 0)).1 = true) :
    s.fwResponses.tail.headD (false, 0) ∈ s.fwResponses.take 2 := by
  rcases hl : s.fwResponses with _ | ⟨r, rest⟩
  · rw [hl] at h
    simp at h
  · rw [hl] at h
    rcases rest with _ | ⟨r2, rest2⟩
    · simp at h
    · simp

/-- Firmware freshness hypothesis on the next (at most two) responses the
    current operation may consume: a successful response returns address 0
    or an address not currently firmware-live.  A well-behaved firmware
    never hands out a range that is already allocated. -/
def FreshResp (s : EfiState) : Prop :=
  ∀ r ∈ s.fwResponses.take 2, r.1 = true → r.2 = 0 ∨ r.2 ∉ s.fwLive

instance freshRespDec (s : EfiState) : Decidable (FreshResp s) :=
  inferInstanceAs (Decidable (∀ r ∈ s.fwResponses.take 2, r.1 = true →
    r.2 = 0 ∨ r.2 ∉ s.fwLive))

theorem fw_allocate_pages_inv (ty : alloc_type) (p a : Nat) (s : EfiState)
    (hinv : TrackerInv s) : TrackerInv (fw_allocate_pages ty p a s) := by
  refine trackerInv_mono s _ hinv ?_ ?_
  · rfl
  · intro x hx
    rw [fw_allocate_pages_fwLive]
    split
    · exact List.mem_cons_of_mem _ hx
    · exact hx

theorem grub_efi_allocate_anypages_inv (p : Nat) (s : EfiState)
    (hinv : TrackerInv s) (hfresh : FreshResp s) :
    TrackerInv (grub_efi_allocate_anypages p s).2 := by
  unfold grub_efi_allocate_anypages
  dsimp only
  have hs1 := fw_allocate_pages_inv alloc_type.any_pages p 0 s hinv
  rcases hok : (fwRespHead s).1 with _ | _
  · exact hs1
  · show TrackerInv (record_allocation (fwRespHead s).2 p
      (fw_allocate_pages alloc_type.any_pages p 0 s)).2
    apply record_allocation_inv _ _ _ hs1
    rcases hfresh _ (fwRespHead_mem_take s hok) hok with h0 | hnot
    · exact Or.inl h0
    · refine Or.inr ⟨?_, ?_⟩
      · rw [fw_allocate_pages_fwLive, if_pos hok]
        exact List.mem_cons_self _ _
      · rw [fw_allocate_pages_tracker]
        intro hin
        exact hnot (hinv.2 _ hin)

theorem grub_efi_allocate_pages_inv (addr p : Nat) (s : EfiState)
    (hinv : TrackerInv s) (hfresh : FreshResp s) :
    TrackerInv (grub_efi_allocate_pages addr p s).2 := by
  unfold grub_efi_allocate_pages
  dsimp only
  by_cases hcap : 0x7fffffff < addr
  · rw [if_pos hcap]
    exact hinv
  · rw [if_neg hcap]
    set ty := if addr = 0 then alloc_type.max_address else alloc_type.at_address
      with hty
    set addr1 := if addr = 0 then 0x7fffffff else addr with haddr1
    have hs1 := fw_allocate_pages_inv ty p addr1 s hinv
    rcases hok : (fwRespHead s).1 with _ | _
    · exact hs1
    · by_cases hz : (fwRespHead s).2 = 0
      · rw [if_pos hz]
        have hs2 := fw_allocate_pages_inv ty p 0x7fffffff
          (fw_allocate_pages ty p addr1 s) hs1
        have hs3 := grub_efi_free_pages_inv 0 p
          (fw_allocate_pages ty p 0x7fffffff (fw_allocate_pages ty p addr1 s))
          hs2 (Or.inl rfl)
        rcases hok2 : (fwRespHead (fw_allocate_pages ty p addr1 s)).1 with _ | _
        · exact hs3
        · show TrackerInv (record_allocation
            (fwRespHead (fw_allocate_pages ty p addr1 s)).2 p
            (grub_efi_free_pages 0 p
              (fw_allocate_pages ty p 0x7fffffff
                (fw_allocate_pages ty p addr1 s)))).2
          apply record_allocation_inv _ _ _ hs3
          have hmem2 : fwRespHead (fw_allocate_pages ty p addr1 s) ∈
              s.fwResponses.take 2 := by
            apply fwRespHead_tail_mem_take
            exact hok2
          rcases hfresh _ hmem2 hok2 with h0 | hnot
          · exact Or.inl h0
          · by_cases ha2 : (fwRespHead (fw_allocate_pages ty p addr1 s)).2 = 0
            · exact Or.inl ha2
            · refine Or.inr ⟨?_, ?_⟩
              · rw [grub_efi_free_pages_fwLive, fw_allocate_pages_fwLive,
                  if_pos hok2, fw_allocate_pages_fwLive, if_pos hok, hz]
                rw [List.erase_cons_tail (by simp [ha2]), List.erase_cons_head]
                exact List.mem_cons_self _ _
              · intro hin
                have hin2 := trackerLive_free_subset 0 p
                  (fw_allocate_pages ty p 0x7fffffff
                    (fw_allocate_pages ty p addr1 s)) _ hin
                rw [fw_allocate_pages_tracker, fw_allocate_pages_tracker] at hin2
                exact hnot (hinv.2 _ hin2)
      · rw [if_neg hz]
        show TrackerInv (record_allocation (fwRespHead s).2 p
          (fw_allocate_pages ty p addr1 s)).2
        apply record_allocation_inv _ _ _ hs1
        rcases hfresh _ (fwRespHead_mem_take s hok) hok with h0 | hnot
        · exact Or.inl h0
        · refine Or.inr ⟨?_, ?_⟩
          · rw [fw_allocate_pages_fwLive, if_pos hok]
            exact List.mem_cons_self _ _
          · rw [fw_allocate_pages_tracker]
            intro hin
            exact hnot (hinv.2 _ hin)

/-- One external call into the allocator interface. -/
inductive MmOp where
  | allocAny (pages : Nat)
  | allocAt (address pages : Nat)
  | freeAt (address pages : Nat)
deriving DecidableEq

/-- Apply one allocate/free call to the state. -/
def applyOp (s : EfiState) : MmOp → EfiState
  | MmOp.allocAny p => (grub_efi_allocate_anypages p s).2
  | MmOp.allocAt a p => (grub_efi_allocate_pages a p s).2
  | MmOp.freeAt a p => grub_efi_free_pages a p s

/-- Run a sequence of allocate/free calls. -/
def runOps (s : EfiState) : List MmOp → EfiState
  | [] => s
  | op :: rest => runOps (applyOp s op) rest

/-- The operation does not free the tracker bookkeeping storage itself
    (which only `grub_efi_mm_fini` may do, after draining the tracker). -/
def SelfSafe (s : EfiState) : MmOp → Prop
  | MmOp.freeAt a _ =>
      match s.tracker with
      | some (selfA, _) => a ≠ selfA
      | none => True
  | _ => True

instance selfSafeDec (s : EfiState) (op : MmOp) : Decidable (SelfSafe s op) := by
  unfold SelfSafe
  rcases op with p | ⟨a, p⟩ | ⟨a, p⟩
  · exact inferInstanceAs (Decidable True)
  · exact inferInstanceAs (Decidable True)
  · rcases htr : s.tracker with _ | ⟨selfA, slots⟩
    · exact inferInstanceAs (Decidable True)
    · exact inferInstanceAs (Decidable (a ≠ selfA))

/-- Well-behavedness of a whole run: at every step the firmware responses
    about to be consumed are fresh, and the call does not free the tracker
    storage's own address. -/
def OpsOK : EfiState → List MmOp → Prop
  | _, [] => True
  | s, op :: rest => (FreshResp s ∧ SelfSafe s op) ∧ OpsOK (applyOp s op) rest

def opsOKDec : (s : EfiState) → (ops : List MmOp) → Decidable (OpsOK s ops)
  | _, [] => Decidable.isTrue trivial
  | s, op :: rest =>
      have : Decidable (OpsOK (applyOp s op) rest) := opsOKDec _ rest
      inferInstanceAs (Decidable (_ ∧ _))

instance (s : EfiState) (ops : List MmOp) : Decidable (OpsOK s ops) :=
  opsOKDec s ops

theorem applyOp_inv (s : EfiState) (op : MmOp) (hinv : TrackerInv s)
    (hfresh : FreshResp s) (hsafe : SelfSafe s op) :
    TrackerInv (applyOp s op) := by
  rcases op with p | ⟨a, p⟩ | ⟨a, p⟩
  · exact grub_efi_allocate_anypages_inv p s hinv hfresh
  · exact grub_efi_allocate_pages_inv a p s hinv hfresh
  · apply grub_efi_free_pages_inv a p s hinv
    rcases htr : s.tracker with _ | ⟨selfA, slots⟩
    · exact Or.inr (fun sA sl h => by simp at h)
    · right
      intro sA sl h
      injection h with h2
      injection h2 with h3 h4
      subst h3
      simp only [SelfSafe, htr] at hsafe
      exact hsafe

/-- C10: for every sequence of allocate/free calls and every well-behaved
    firmware (each successful response hands out 0 or a non-live address;
    no call frees the tracker storage's own address), the tracker invariant
    is preserved: the tracker never holds two live slots with the same
    non-zero base address, and every live slot's address is still
    firmware-allocated — in particular no live slot refers to an address
    that has been freed through `grub_efi_free_pages` and not re-allocated
    since. -/
theorem tracker_invariant_preserved (ops : List MmOp) (s : EfiState)
    (hinv : TrackerInv s) (hok : OpsOK s ops) :
    TrackerInv (runOps s ops) := by
  induction ops generalizing s with
  | nil => exact hinv
  | cons op rest ih =>
      exact ih (applyOp s op) (applyOp_inv s op hinv hok.1.1 hok.1.2) hok.2

/-- Concrete post-startup-like state for the C10 witness: installed tracker
    with all slots sentinel, one pending successful firmware response. -/
def opsWitnessState : EfiState :=
  { initState with
    fwResponses := [(true, 0x4000)]
    tracker :=
      some (0x9000, List.replicate MAX_ALLOCATED_PAGES { addr := 0, num_pages := 0 }) }

/-- Witness for C10: an allocate-then-free run on a concrete state. -/
theorem tracker_invariant_preserved_witness :
    TrackerInv (runOps opsWitnessState [MmOp.allocAny 1, MmOp.freeAt 0x4000 1]) :=
  tracker_invariant_preserved [MmOp.allocAny 1, MmOp.freeAt 0x4000 1]
    opsWitnessState (by decide) (by decide)
